import Mathlib

/-
Verification of the rataudio-meter widget: scale-mapping math
(decibel / fill-ratio conversion), the peak-hold decay state machine, and
the color-zone / bar-cell painting logic of the renderer.

Rust f32 arithmetic is modelled over the real numbers: powf is Real.rpow,
log10 is Real.logb 10.  Rust u16 coordinates are modelled as Nat, with the
one subtraction that can overflow modelled as a checked (Option-valued)
subtraction, since u16 overflow is a panic under debug assertions.
Fallible operations (Rust assert! panics, u16 overflow) return Option.
-/

set_option maxHeartbeats 1000000

namespace Rataudio

/-- Rust f32::log10, modelled as the real base-10 logarithm. -/
noncomputable def log10 (x : ℝ) : ℝ := Real.logb 10 x

/-- constants.rs MIN_DB. -/
def MIN_DB : ℝ := -120

/-- constants.rs YELLOW_START_DB. -/
def YELLOW_START_DB : ℝ := -12

/-- constants.rs RED_START_DB. -/
def RED_START_DB : ℝ := -3

namespace scaling
namespace MeterScale

/-- scaling.rs METER_LOG_SCALE_FACTOR. -/
def METER_LOG_SCALE_FACTOR : ℝ := 2

/-- scaling.rs MeterScale::db_to_ratio: clamp to [MIN_DB, 0] at the
boundaries, then map through the log relation and square
(powf METER_LOG_SCALE_FACTOR). -/
noncomputable def db_to_ratio (db : ℝ) : ℝ :=
  if db ≤ MIN_DB then 0
  else if 0 ≤ db then 1
  else
    ((log10 ((10 : ℝ) ^ (db / 20)) - log10 ((10 : ℝ) ^ (MIN_DB / 20))) /
        (0 - log10 ((10 : ℝ) ^ (MIN_DB / 20)))) ^ METER_LOG_SCALE_FACTOR

/-- scaling.rs MeterScale::ratio_to_db: inverse transform
(powf (1/METER_LOG_SCALE_FACTOR), then back through the log relation). -/
noncomputable def ratio_to_db (ratio : ℝ) : ℝ :=
  20 * log10 ((10 : ℝ) ^
    (ratio ^ ((1 : ℝ) / METER_LOG_SCALE_FACTOR) *
        (0 - log10 ((10 : ℝ) ^ (MIN_DB / 20))) +
      log10 ((10 : ℝ) ^ (MIN_DB / 20))))

/-- scaling.rs MeterScale::sample_to_ratio: amplitude at or below 0 gives 0,
at or above 1 gives 1, otherwise the direct log transform squared
(l is MIN_DB/20, the base-10 log of the minimal amplitude). -/
noncomputable def sample_to_ratio (sample_amplitude : ℝ) : ℝ :=
  if sample_amplitude ≤ 0 then 0
  else if 1 ≤ sample_amplitude then 1
  else
    ((log10 sample_amplitude - MIN_DB / 20) / -(MIN_DB / 20)) ^
      METER_LOG_SCALE_FACTOR

end MeterScale
end scaling

namespace constants

/-- constants.rs lazy static YELLOW_START = db_to_ratio(YELLOW_START_DB). -/
noncomputable def YELLOW_START : ℝ := scaling.MeterScale.db_to_ratio YELLOW_START_DB

/-- constants.rs lazy static RED_START = db_to_ratio(RED_START_DB). -/
noncomputable def RED_START : ℝ := scaling.MeterScale.db_to_ratio RED_START_DB

end constants

namespace meter
namespace MeterScale

/-- meter.rs METER_LOG_SCALE_FACTOR (the legacy in-file copy of the scale). -/
def METER_LOG_SCALE_FACTOR : ℝ := 2

/-- meter.rs MeterScale::db_to_ratio (legacy in-file copy): the same log
transform as scaling.rs but with no clamping of out-of-domain input. -/
noncomputable def db_to_ratio (db : ℝ) : ℝ :=
  ((log10 ((10 : ℝ) ^ (db / 20)) - log10 ((10 : ℝ) ^ (MIN_DB / 20))) /
      (0 - log10 ((10 : ℝ) ^ (MIN_DB / 20)))) ^ METER_LOG_SCALE_FACTOR

/-- meter.rs MeterScale::sample_to_ratio (legacy in-file copy): amplitude at
or below 0 gives 0, otherwise the direct log transform squared; no clamp at
the top or at the floor. -/
noncomputable def sample_to_ratio (sample_amplitude : ℝ) : ℝ :=
  if sample_amplitude ≤ 0 then 0
  else
    ((log10 sample_amplitude - MIN_DB / 20) / -(MIN_DB / 20)) ^
      METER_LOG_SCALE_FACTOR

end MeterScale

/-- meter.rs MeterInput: a mono or stereo loudness input. -/
inductive MeterInput where
  | Mono (v : ℝ)
  | Stereo (lv rv : ℝ)

/-- meter.rs Meter: per-channel ratio (array of 2) and channel count. -/
structure Meter where
  ratio : ℝ × ℝ
  channels : ℕ

/-- meter.rs Meter::mono. -/
def Meter.mono : Meter := ⟨(0, 0), 1⟩

/-- meter.rs Meter::stereo. -/
def Meter.stereo : Meter := ⟨(0, 0), 2⟩

/-- meter.rs Meter::db: mono input inside [MIN_DB, 0] is converted with
db_to_ratio, mono input outside that range sets the ratio to 0; stereo
input is converted unconditionally. -/
noncomputable def Meter.db (m : Meter) : MeterInput → Meter
  | MeterInput.Mono dbfs =>
      if MIN_DB ≤ dbfs ∧ dbfs ≤ 0 then ⟨(MeterScale.db_to_ratio dbfs, 0), m.channels⟩
      else ⟨(0, 0), m.channels⟩
  | MeterInput.Stereo lv rv =>
      ⟨(MeterScale.db_to_ratio lv, MeterScale.db_to_ratio rv), m.channels⟩

/-- meter.rs Meter::sample_amplitude: asserts every amplitude is inside
[0, 1] (none models the assert! panic), then converts with
sample_to_ratio. -/
noncomputable def Meter.sample_amplitude (m : Meter) : MeterInput → Option Meter
  | MeterInput.Mono ampl =>
      if 0 ≤ ampl ∧ ampl ≤ 1 then
        some ⟨(MeterScale.sample_to_ratio ampl, 0), m.channels⟩
      else none
  | MeterInput.Stereo lv rv =>
      if (0 ≤ lv ∧ lv ≤ 1) ∧ (0 ≤ rv ∧ rv ≤ 1) then
        some ⟨(MeterScale.sample_to_ratio lv, MeterScale.sample_to_ratio rv), m.channels⟩
      else none

/-- meter.rs Meter::ratio (named set_ratio here because the Lean structure
field is already called ratio): asserts every value is inside [0, 1] (none
models the assert! panic), then stores the value(s) unchanged. -/
noncomputable def Meter.set_ratio (m : Meter) : MeterInput → Option Meter
  | MeterInput.Mono r =>
      if 0 ≤ r ∧ r ≤ 1 then some ⟨(r, 0), m.channels⟩ else none
  | MeterInput.Stereo lv rv =>
      if (0 ≤ lv ∧ lv ≤ 1) ∧ (0 ≤ rv ∧ rv ≤ 1) then
        some ⟨(lv, rv), m.channels⟩
      else none

end meter

namespace state

/-- state.rs MeterState: per-channel held peak ratio, per-channel timestamp
of the last peak (Instant modelled as a real number of seconds), and the
shared hold duration in seconds. -/
structure MeterState where
  peak_hold_ratio : ℝ × ℝ
  last_peak_time : ℝ × ℝ
  peak_hold_time : ℝ

/-- state.rs MeterState::default: held ratios 0, both timestamps the
construction instant (Instant::now(), passed in as now), hold duration one
second. -/
def MeterState.default (now : ℝ) : MeterState := ⟨(0, 0), (now, now), 1⟩

end state

namespace rendering

open state

/-- Rust u16 subtraction: none models the arithmetic-overflow panic that a
debug build raises (and the wrap a release build performs) when the
subtrahend exceeds the minuend. -/
def u16_sub (a b : ℕ) : Option ℕ := if b ≤ a then some (a - b) else none

/-- Rust f32::round followed by the saturating cast `as u16`, for the
magnitudes produced here: round half away from zero, saturating below at 0.
For nonnegative arguments this is exactly Mathlib round; negative arguments
saturate to 0 under both models. -/
noncomputable def roundN (x : ℝ) : ℕ := (round x).toNat

/-- Rust f32::clamp(lo, hi) for lo ≤ hi. -/
noncomputable def clampR (x lo hi : ℝ) : ℝ :=
  if x < lo then lo else if hi < x then hi else x

/-- Rust u16::clamp(lo, hi) for lo ≤ hi. -/
def clampN (x lo hi : ℕ) : ℕ :=
  if x < lo then lo else if hi < x then hi else x

/-- ratatui Rect (origin and size in character cells, u16 as Nat). -/
structure Rect where
  x : ℕ
  y : ℕ
  width : ℕ
  height : ℕ

/-- ratatui Rect::is_empty: zero width or zero height. -/
def Rect.isEmpty (r : Rect) : Bool := r.width = 0 || r.height = 0

/-- Foreground color tag written into a cell. -/
inductive Color where
  | Green
  | Yellow
  | Red
deriving DecidableEq

/-- One buffer side effect: the painted cell position and its color (the
glyph is the same SEVEN_EIGHTHS block for every write and is omitted). -/
structure Write where
  x : ℕ
  y : ℕ
  color : Color
deriving DecidableEq

/-- rendering.rs Meter::get_color: red if x >= red_start, else yellow if
x >= yellow_start, else green. -/
def get_color (x yellow_start red_start : ℕ) : Color :=
  if red_start ≤ x then Color.Red
  else if yellow_start ≤ x then Color.Yellow
  else Color.Green

/-- Modelled from the spec: the configured meter value consumed by
rendering.rs.  The crate revision of meter.rs defining this struct (with
builder methods, block, show_labels and show_scale) is not under src; the
field set is taken from rendering.rs's uses of self and spec section 3
MeterConfig: per-channel ratio, channel count, show-labels and show-scale
toggles.  The optional cosmetic block is omitted: it is consumed before the
inner area is computed and the claims do not involve it, so the meter area
equals the supplied area. -/
structure MeterW where
  ratio : ℝ × ℝ
  channels : ℕ
  show_labels : Bool
  show_scale : Bool

/-- rendering.rs color-zone computation, done once from the full meter-row
width before the channel loop: end = left + width,
yellow_start = min(left + round(width * YELLOW_START), end - 2),
red_start = min(left + round(width * RED_START), end - 1).  The u16
subtraction end - 2 is checked: it overflows when left + width < 2. -/
noncomputable def colorZones (area : Rect) : Option (ℕ × ℕ) :=
  match u16_sub (area.x + area.width) 2 with
  | none => none
  | some e2 =>
      some (min (area.x + roundN ((area.width : ℝ) * constants.YELLOW_START)) e2,
            min (area.x + roundN ((area.width : ℝ) * constants.RED_START))
              (area.x + area.width - 1))

/-- rendering.rs peak-hold update for one channel (the block between the
bar loop and the peak marker): if the current ratio exceeds the held ratio,
take it and reset the timestamp; otherwise, once the elapsed time exceeds
the hold duration, multiply the held ratio by
clamp(0.99 - 0.01 * elapsed, 0.1, 0.99); otherwise leave the state alone.
Returns (held ratio, last peak time). -/
noncomputable def peakHoldUpdate (ratio held last hold now : ℝ) : ℝ × ℝ :=
  if held < ratio then (ratio, now)
  else if hold < now - last then
    (held * clampR (0.99 - 0.01 * (now - last)) 0.1 0.99, last)
  else (held, last)

/-- Modelled from the spec: the vertical Length-constraint layout stacks
one label row per channel (when labels are shown) above one bar row per
channel (ratatui Layout::vertical, spec section 4.3); this gives the y
coordinate of the bar row of a channel. -/
def meterRowY (area : Rect) (show_labels : Bool) (channels c : ℕ) : ℕ :=
  area.y + (if show_labels then channels else 0) + c

/-- rendering.rs channel-loop body for one channel: paint the bar cells
(every x from the row's left edge to end - 1 whose position is at most
left + round(width * ratio), colored by get_color against the shared
zones), update the peak-hold state, then paint the peak marker at
clamp(left + round(width * held), left, end - 1) with the same color rule.
The textual dB label (ratatui Paragraph, no color-zone logic) is outside
the modelled core. -/
noncomputable def renderChannel (leftN endN w y ys rs : ℕ)
    (ratio held last hold now : ℝ) : List Write × (ℝ × ℝ) :=
  let bar := (List.range' leftN (endN - leftN)).filterMap
    (fun x =>
      if x ≤ leftN + roundN ((w : ℝ) * ratio) then
        some ⟨x, y, get_color x ys rs⟩
      else none)
  let st := peakHoldUpdate ratio held last hold now
  let peak_x := clampN (leftN + roundN ((w : ℝ) * st.1)) leftN (endN - 1)
  (bar ++ [⟨peak_x, y, get_color peak_x ys rs⟩], st)

/-- rendering.rs StatefulWidget::render core (no block, labels and the
scale ruler are plain text without color-zone logic and are outside the
modelled core): empty area is a no-op; otherwise compute the shared color
zones once (none propagates the u16 overflow panic of end - 2), then run
the channel loop, collecting the buffer writes and threading the peak-hold
state. -/
noncomputable def render (m : MeterW) (area : Rect) (s : MeterState) (now : ℝ) :
    Option (List Write × MeterState) :=
  if area.isEmpty then some ([], s)
  else
    match colorZones area with
    | none => none
    | some (ys, rs) =>
      let leftN := area.x
      let endN := area.x + area.width
      let w := area.width
      if m.channels = 0 then some ([], s)
      else
        let r0 := renderChannel leftN endN w
          (meterRowY area m.show_labels m.channels 0) ys rs
          m.ratio.1 s.peak_hold_ratio.1 s.last_peak_time.1 s.peak_hold_time now
        if m.channels = 1 then
          some (r0.1,
            ⟨(r0.2.1, s.peak_hold_ratio.2), (r0.2.2, s.last_peak_time.2),
              s.peak_hold_time⟩)
        else
          let r1 := renderChannel leftN endN w
            (meterRowY area m.show_labels m.channels 1) ys rs
            m.ratio.2 s.peak_hold_ratio.2 s.last_peak_time.2 s.peak_hold_time now
          some (r0.1 ++ r1.1,
            ⟨(r0.2.1, r1.2.1), (r0.2.2, r1.2.2), s.peak_hold_time⟩)

end rendering

/-! Helper lemmas about the scale mapping, over the reals. -/

theorem log10_rpow (t : ℝ) : log10 ((10 : ℝ) ^ t) = t := by
  rw [log10, Real.logb_rpow (by norm_num) (by norm_num)]

theorem log10_one_div_pow (n : ℕ) : log10 ((1 : ℝ) / 10 ^ n) = -(n : ℝ) := by
  rw [show ((1 : ℝ) / 10 ^ n) = (10 : ℝ) ^ (-(n : ℝ)) by
      rw [Real.rpow_neg (by norm_num : (0 : ℝ) ≤ 10), Real.rpow_natCast, one_div]]
  exact log10_rpow _

theorem db_to_ratio_of_le_min {db : ℝ} (h : db ≤ MIN_DB) :
    scaling.MeterScale.db_to_ratio db = 0 := by
  unfold scaling.MeterScale.db_to_ratio
  rw [if_pos h]

theorem db_to_ratio_of_nonneg {db : ℝ} (h : 0 ≤ db) :
    scaling.MeterScale.db_to_ratio db = 1 := by
  unfold scaling.MeterScale.db_to_ratio
  rw [if_neg (by rw [MIN_DB]; intro hc; linarith), if_pos h]

theorem db_to_ratio_interior {db : ℝ} (h1 : MIN_DB < db) (h2 : db < 0) :
    scaling.MeterScale.db_to_ratio db = ((db + 120) / 120) ^ 2 := by
  unfold scaling.MeterScale.db_to_ratio
  rw [if_neg (not_le.mpr h1), if_neg (not_le.mpr h2)]
  rw [log10_rpow, log10_rpow]
  simp only [scaling.MeterScale.METER_LOG_SCALE_FACTOR]
  rw [Real.rpow_two]
  rw [MIN_DB]
  norm_num
  ring_nf

theorem db_to_ratio_eq_clamped (db : ℝ) :
    scaling.MeterScale.db_to_ratio db = ((max MIN_DB (min db 0) + 120) / 120) ^ 2 := by
  rcases le_or_lt db MIN_DB with h | h
  · have hd0 : db ≤ 0 := le_trans h (by rw [MIN_DB]; norm_num)
    rw [db_to_ratio_of_le_min h, min_eq_left hd0, max_eq_left h, MIN_DB]
    norm_num
  · rcases le_or_lt 0 db with h0 | h0
    · rw [db_to_ratio_of_nonneg h0, min_eq_right h0,
        max_eq_right (by rw [MIN_DB]; norm_num : MIN_DB ≤ (0 : ℝ))]
      norm_num
    · rw [db_to_ratio_interior h h0, min_eq_left h0.le, max_eq_right h.le]

/-- C6: on the interval [MIN_DB, 0] the decibel-to-ratio mapping stays
inside [0, 1] and is monotone non-decreasing. -/
theorem db_to_ratio_bounds_and_mono (db1 db2 : ℝ)
    (h1 : MIN_DB ≤ db1) (h2 : db2 ≤ 0) (h12 : db1 ≤ db2) :
    (0 ≤ scaling.MeterScale.db_to_ratio db1 ∧ scaling.MeterScale.db_to_ratio db1 ≤ 1) ∧
      scaling.MeterScale.db_to_ratio db1 ≤ scaling.MeterScale.db_to_ratio db2 := by
  rw [db_to_ratio_eq_clamped, db_to_ratio_eq_clamped]
  have hm : MIN_DB = (-120 : ℝ) := rfl
  have ha1 : (-120 : ℝ) ≤ max MIN_DB (min db1 0) := hm ▸ le_max_left _ _
  have ha2 : max MIN_DB (min db1 0) ≤ 0 :=
    max_le (by rw [hm]; norm_num) (min_le_right _ _)
  have hb1 : (-120 : ℝ) ≤ max MIN_DB (min db2 0) := hm ▸ le_max_left _ _
  have hab : max MIN_DB (min db1 0) ≤ max MIN_DB (min db2 0) :=
    max_le_max le_rfl (min_le_min h12 le_rfl)
  refine ⟨⟨by positivity, ?_⟩, ?_⟩
  · nlinarith [ha1, ha2]
  · apply pow_le_pow_left₀
    · apply div_nonneg _ (by norm_num : (0 : ℝ) ≤ 120)
      linarith
    · exact (div_le_div_iff_of_pos_right (by norm_num : (0 : ℝ) < 120)).mpr (by linarith)

theorem roundtrip_eq (x : ℝ) (h1 : MIN_DB ≤ x) (h2 : x ≤ 0) :
    scaling.MeterScale.ratio_to_db (scaling.MeterScale.db_to_ratio x) = x := by
  have hl6 : log10 ((10 : ℝ) ^ (MIN_DB / 20)) = -6 := by
    rw [log10_rpow, MIN_DB]
    norm_num
  rcases eq_or_lt_of_le h1 with heq | hlt
  · rw [← heq, db_to_ratio_of_le_min le_rfl]
    unfold scaling.MeterScale.ratio_to_db
    rw [hl6]
    simp only [scaling.MeterScale.METER_LOG_SCALE_FACTOR]
    rw [Real.zero_rpow (by norm_num : (1 : ℝ) / 2 ≠ 0)]
    rw [show ((0 : ℝ) * (0 - -6) + -6) = -6 by ring, log10_rpow, MIN_DB]
    norm_num
  · rcases eq_or_lt_of_le h2 with heq0 | hlt0
    · rw [heq0, db_to_ratio_of_nonneg le_rfl]
      unfold scaling.MeterScale.ratio_to_db
      rw [hl6]
      simp only [scaling.MeterScale.METER_LOG_SCALE_FACTOR]
      rw [Real.one_rpow]
      rw [show ((1 : ℝ) * (0 - -6) + -6) = 0 by ring, log10_rpow]
      norm_num
    · rw [db_to_ratio_interior hlt hlt0]
      have hL0 : (0 : ℝ) ≤ (x + 120) / 120 := by
        rw [MIN_DB] at hlt
        apply div_nonneg _ (by norm_num : (0 : ℝ) ≤ 120)
        linarith
      unfold scaling.MeterScale.ratio_to_db
      rw [hl6]
      simp only [scaling.MeterScale.METER_LOG_SCALE_FACTOR]
      rw [show (((x + 120) / 120) ^ 2 : ℝ) = ((x + 120) / 120) ^ ((2 : ℕ) : ℝ) from
          (Real.rpow_natCast _ 2).symm]
      rw [← Real.rpow_mul hL0]
      rw [show (((2 : ℕ) : ℝ) * (1 / 2)) = 1 by norm_num, Real.rpow_one, log10_rpow]
      ring

/-- C5: for every decibel value in [MIN_DB, 0] the round trip through
db_to_ratio and ratio_to_db recovers the input to within 1.0 dB (over the
reals the round trip is exact). -/
theorem ratio_db_roundtrip (x : ℝ) (h1 : MIN_DB ≤ x) (h2 : x ≤ 0) :
    |scaling.MeterScale.ratio_to_db (scaling.MeterScale.db_to_ratio x) - x| ≤ 1 := by
  rw [roundtrip_eq x h1 h2]
  simp

theorem ratio_db_roundtrip_witness :
    (MIN_DB ≤ (-60 : ℝ) ∧ (-60 : ℝ) ≤ 0) ∧
      |scaling.MeterScale.ratio_to_db (scaling.MeterScale.db_to_ratio (-60)) - (-60)| ≤ 1 :=
  ⟨⟨by rw [MIN_DB]; norm_num, by norm_num⟩,
    ratio_db_roundtrip (-60) (by rw [MIN_DB]; norm_num) (by norm_num)⟩

theorem db_to_ratio_bounds_and_mono_witness :
    (MIN_DB ≤ (-60 : ℝ) ∧ (-30 : ℝ) ≤ 0 ∧ (-60 : ℝ) ≤ -30) ∧
      ((0 ≤ scaling.MeterScale.db_to_ratio (-60) ∧
          scaling.MeterScale.db_to_ratio (-60) ≤ 1) ∧
        scaling.MeterScale.db_to_ratio (-60) ≤ scaling.MeterScale.db_to_ratio (-30)) :=
  ⟨⟨by rw [MIN_DB]; norm_num, by norm_num, by norm_num⟩,
    db_to_ratio_bounds_and_mono (-60) (-30) (by rw [MIN_DB]; norm_num) (by norm_num)
      (by norm_num)⟩

/-- C1: evaluation at the failing input.  The canonical scale function
scaling.rs db_to_ratio saturates a decibel input of 0.1 to ratio 1, but
setting a mono meter value through meter.rs Meter::db at the same input
0.1 dB stores ratio 0 (the method's own doc comment promises saturation
above 0.0, and the claim says the stored fill ratio is 1.0, not 0.0). -/
theorem db_setter_zeroes_above_zero :
    scaling.MeterScale.db_to_ratio ((1 : ℝ) / 10) = 1 ∧
      (meter.Meter.mono.db (meter.MeterInput.Mono ((1 : ℝ) / 10))).ratio = (0, 0) := by
  constructor
  · exact db_to_ratio_of_nonneg (by norm_num)
  · simp only [meter.Meter.db]
    rw [if_neg (by rintro ⟨-, hc⟩; norm_num at hc)]

/-- C7: evaluation at the failing input.  For the amplitude 10⁻⁷ (below the
−120 dB floor amplitude 10⁻⁶), scaling.rs sample_to_ratio returns 1/36,
while db_to_ratio applied to 20·log10 of the same amplitude (−140 dB)
returns 0, so the two conversions disagree strictly inside (0, 1). -/
theorem sample_to_ratio_disagrees_below_floor :
    scaling.MeterScale.sample_to_ratio ((1 : ℝ) / 10 ^ 7) = 1 / 36 ∧
      scaling.MeterScale.db_to_ratio (20 * log10 ((1 : ℝ) / 10 ^ 7)) = 0 ∧
      ((1 : ℝ) / 36) ≠ 0 := by
  refine ⟨?_, ?_, by norm_num⟩
  · unfold scaling.MeterScale.sample_to_ratio
    rw [if_neg (by norm_num), if_neg (by norm_num)]
    rw [log10_one_div_pow]
    simp only [scaling.MeterScale.METER_LOG_SCALE_FACTOR]
    rw [Real.rpow_two, MIN_DB]
    norm_num
  · apply db_to_ratio_of_le_min
    rw [log10_one_div_pow, MIN_DB]
    norm_num

/-- C8: evaluation at the failing input.  Meter::sample_amplitude with the
in-domain amplitude 10⁻¹³ (accepted by its own assert) stores the ratio
49/36 > 1 into the meter configuration, breaking the [0, 1] invariant. -/
theorem sample_amplitude_stores_ratio_above_one :
    (meter.Meter.mono.sample_amplitude
          (meter.MeterInput.Mono ((1 : ℝ) / 10 ^ 13))).map (fun m => m.ratio.1) =
        some (49 / 36) ∧
      (1 : ℝ) < 49 / 36 := by
  refine ⟨?_, by norm_num⟩
  simp only [meter.Meter.sample_amplitude]
  rw [if_pos (by constructor <;> norm_num)]
  have hs : meter.MeterScale.sample_to_ratio ((1 : ℝ) / 10 ^ 13) = 49 / 36 := by
    unfold meter.MeterScale.sample_to_ratio
    rw [if_neg (by norm_num)]
    rw [log10_one_div_pow]
    simp only [meter.MeterScale.METER_LOG_SCALE_FACTOR]
    rw [Real.rpow_two, MIN_DB]
    norm_num
  exact congrArg some hs

/-- C9: Meter::ratio rejects every out-of-domain input with a panic (none)
and, for in-domain input, stores the given value(s) unchanged. -/
theorem set_ratio_rejects_and_stores :
    (∀ (m : meter.Meter) (r : ℝ), ¬(0 ≤ r ∧ r ≤ 1) →
        m.set_ratio (meter.MeterInput.Mono r) = none) ∧
      (∀ (m : meter.Meter) (lv rv : ℝ), ¬((0 ≤ lv ∧ lv ≤ 1) ∧ (0 ≤ rv ∧ rv ≤ 1)) →
          m.set_ratio (meter.MeterInput.Stereo lv rv) = none) ∧
      (∀ (m : meter.Meter) (r : ℝ), 0 ≤ r → r ≤ 1 →
          m.set_ratio (meter.MeterInput.Mono r) = some ⟨(r, 0), m.channels⟩) ∧
      (∀ (m : meter.Meter) (lv rv : ℝ), 0 ≤ lv → lv ≤ 1 → 0 ≤ rv → rv ≤ 1 →
          m.set_ratio (meter.MeterInput.Stereo lv rv) = some ⟨(lv, rv), m.channels⟩) := by
  refine ⟨fun m r h => ?_, fun m lv rv h => ?_, fun m r h0 h1 => ?_,
    fun m lv rv hl0 hl1 hr0 hr1 => ?_⟩
  · simp only [meter.Meter.set_ratio]
    rw [if_neg h]
  · simp only [meter.Meter.set_ratio]
    rw [if_neg h]
  · simp only [meter.Meter.set_ratio]
    rw [if_pos ⟨h0, h1⟩]
  · simp only [meter.Meter.set_ratio]
    rw [if_pos ⟨⟨hl0, hl1⟩, ⟨hr0, hr1⟩⟩]

theorem set_ratio_rejects_and_stores_witness :
    (¬((0 : ℝ) ≤ 2 ∧ (2 : ℝ) ≤ 1) ∧
        meter.Meter.mono.set_ratio (meter.MeterInput.Mono 2) = none) ∧
      ((0 : ℝ) ≤ 3 / 4 ∧ (3 : ℝ) / 4 ≤ 1 ∧
        meter.Meter.mono.set_ratio (meter.MeterInput.Mono (3 / 4)) =
          some ⟨(3 / 4, 0), meter.Meter.mono.channels⟩) :=
  ⟨⟨by norm_num, set_ratio_rejects_and_stores.1 meter.Meter.mono 2 (by norm_num)⟩,
    ⟨by norm_num, by norm_num,
      set_ratio_rejects_and_stores.2.2.1 meter.Meter.mono (3 / 4) (by norm_num)
        (by norm_num)⟩⟩

theorem clampR_le_hi (x lo hi : ℝ) (h : lo ≤ hi) : rendering.clampR x lo hi ≤ hi := by
  unfold rendering.clampR
  split_ifs with h1 h2
  · exact h
  · exact le_rfl
  · exact le_of_not_lt h2

/-- C2: the per-channel peak-hold update of one render call follows exactly
three branches: a strictly rising current ratio replaces the held ratio and
resets the timestamp; otherwise, elapsed time beyond the hold duration
multiplies the held ratio by clamp(0.99 - 0.01·elapsed, 0.1, 0.99) and
keeps the timestamp; otherwise the state is unchanged. -/
theorem peak_hold_three_branches (ratio held last hold now : ℝ) :
    (held < ratio → rendering.peakHoldUpdate ratio held last hold now = (ratio, now)) ∧
      (¬held < ratio → hold < now - last →
        rendering.peakHoldUpdate ratio held last hold now =
          (held * rendering.clampR (0.99 - 0.01 * (now - last)) 0.1 0.99, last)) ∧
      (¬held < ratio → ¬hold < now - last →
        rendering.peakHoldUpdate ratio held last hold now = (held, last)) := by
  unfold rendering.peakHoldUpdate
  exact ⟨fun h => by rw [if_pos h],
    fun h1 h2 => by rw [if_neg h1, if_pos h2],
    fun h1 h2 => by rw [if_neg h1, if_neg h2]⟩

theorem peak_hold_three_branches_witness :
    ((1 : ℝ) / 2 < 1) ∧ rendering.peakHoldUpdate 1 (1 / 2) 0 1 0 = (1, 0) :=
  ⟨by norm_num, (peak_hold_three_branches 1 (1 / 2) 0 1 0).1 (by norm_num)⟩

/-- C10: equality does not count as rising.  When the current ratio equals
the held ratio the timestamp is never refreshed; once the hold duration has
elapsed the held value is multiplied by the decay factor (strictly
decreasing while it is positive), and within the hold window the entire
state is left unchanged. -/
theorem peak_hold_equal_not_rising (held last hold now : ℝ) :
    ((rendering.peakHoldUpdate held held last hold now).2 = last) ∧
      (hold < now - last →
        rendering.peakHoldUpdate held held last hold now =
          (held * rendering.clampR (0.99 - 0.01 * (now - last)) 0.1 0.99, last)) ∧
      (hold < now - last → 0 < held →
        (rendering.peakHoldUpdate held held last hold now).1 < held) ∧
      (¬hold < now - last →
        rendering.peakHoldUpdate held held last hold now = (held, last)) := by
  have hn : ¬held < held := lt_irrefl held
  refine ⟨?_, fun h2 => ?_, fun h2 hpos => ?_, fun h2 => ?_⟩
  · unfold rendering.peakHoldUpdate
    rw [if_neg hn]
    by_cases h2 : hold < now - last
    · rw [if_pos h2]
    · rw [if_neg h2]
  · unfold rendering.peakHoldUpdate
    rw [if_neg hn, if_pos h2]
  · unfold rendering.peakHoldUpdate
    rw [if_neg hn, if_pos h2]
    have hc : rendering.clampR (0.99 - 0.01 * (now - last)) 0.1 0.99 ≤ 0.99 :=
      clampR_le_hi _ _ _ (by norm_num)
    calc held * rendering.clampR (0.99 - 0.01 * (now - last)) 0.1 0.99
        ≤ held * 0.99 := by nlinarith
      _ < held := by nlinarith
  · unfold rendering.peakHoldUpdate
    rw [if_neg hn, if_neg h2]

theorem peak_hold_equal_not_rising_witness :
    (¬(1 : ℝ) < 1 / 2 - 0) ∧
      rendering.peakHoldUpdate (1 / 2) (1 / 2) 0 1 (1 / 2) = (1 / 2, 0) :=
  ⟨by norm_num, (peak_hold_equal_not_rising (1 / 2) 0 1 (1 / 2)).2.2.2 (by norm_num)⟩

/-- C4: evaluation at the failing input, and the empty no-op.  Rendering a
mono meter into the non-empty width-1 region at the origin fails (none):
the shared color-zone computation subtracts 2 from end = left + width = 1
on u16, which overflows.  Rendering into a zero-width region performs no
buffer writes, leaves the state alone and does not fail. -/
theorem render_fails_on_width_one_at_origin :
    rendering.render ⟨(0, 0), 1, false, false⟩ ⟨0, 0, 1, 1⟩
        (state.MeterState.default 0) 0 = none ∧
      rendering.render ⟨(0, 0), 1, false, false⟩ ⟨0, 0, 0, 5⟩
          (state.MeterState.default 0) 0 =
        some ([], state.MeterState.default 0) := by
  constructor
  · simp [rendering.render, rendering.Rect.isEmpty, rendering.colorZones,
      rendering.u16_sub]
  · simp [rendering.render, rendering.Rect.isEmpty]

theorem get_color_spec (x ys rs : ℕ) :
    (rendering.get_color x ys rs = rendering.Color.Red ↔ rs ≤ x) ∧
      (rendering.get_color x ys rs = rendering.Color.Yellow ↔ (x < rs ∧ ys ≤ x)) ∧
      (rendering.get_color x ys rs = rendering.Color.Green ↔ (x < rs ∧ x < ys)) := by
  unfold rendering.get_color
  by_cases h1 : rs ≤ x
  · simp [h1, not_lt.mpr h1]
  · by_cases h2 : ys ≤ x
    · simp [h1, h2, not_le.mp h1]
    · simp [h1, h2, not_le.mp h1, not_le.mp h2]

theorem renderChannel_write_color (leftN endN w y ys rs : ℕ)
    (ratio held last hold now : ℝ) (wr : rendering.Write)
    (hw : wr ∈ (rendering.renderChannel leftN endN w y ys rs ratio held last hold now).1) :
    wr.color = rendering.get_color wr.x ys rs := by
  simp only [rendering.renderChannel, List.mem_append, List.mem_filterMap,
    List.mem_singleton] at hw
  rcases hw with ⟨x, hx, hcond⟩ | hpk
  · split at hcond
    · rw [← Option.some.inj hcond]
    · exact absurd hcond (by simp)
  · rw [hpk]

theorem colorZones_bounds (area : rendering.Rect) (ys rs : ℕ)
    (hz : rendering.colorZones area = some (ys, rs)) :
    ys ≤ area.x + area.width - 2 ∧ rs ≤ area.x + area.width - 1 := by
  unfold rendering.colorZones rendering.u16_sub at hz
  by_cases h2 : 2 ≤ area.x + area.width
  · rw [if_pos h2] at hz
    simp only [] at hz
    have hpair := Option.some.inj hz
    injection hpair with hy hr
    constructor
    · rw [← hy]
      exact min_le_right _ _
    · rw [← hr]
      exact min_le_right _ _
  · rw [if_neg h2] at hz
    exact absurd hz (by simp)

/-- C3: every cell painted in a bar row, and the peak marker, is red iff
its x-position is at least red_start, else yellow iff it is at least
yellow_start, else green, where the two thresholds are computed once from
the full row width (shared by all channels) and clamped so that
yellow_start ≤ end - 2 and red_start ≤ end - 1. -/
theorem bar_and_marker_colors (m : rendering.MeterW) (area : rendering.Rect)
    (s : state.MeterState) (now : ℝ) (ys rs : ℕ)
    (hz : rendering.colorZones area = some (ys, rs))
    (out : List rendering.Write × state.MeterState)
    (hr : rendering.render m area s now = some out)
    (wr : rendering.Write) (hw : wr ∈ out.1) :
    ((wr.color = rendering.Color.Red ↔ rs ≤ wr.x) ∧
      (wr.color = rendering.Color.Yellow ↔ (wr.x < rs ∧ ys ≤ wr.x)) ∧
      (wr.color = rendering.Color.Green ↔ (wr.x < rs ∧ wr.x < ys))) ∧
    ys ≤ area.x + area.width - 2 ∧ rs ≤ area.x + area.width - 1 := by
  refine ⟨?_, colorZones_bounds area ys rs hz⟩
  have hcol : wr.color = rendering.get_color wr.x ys rs := by
    unfold rendering.render at hr
    by_cases he : area.isEmpty = true
    · rw [if_pos he] at hr
      rw [← Option.some.inj hr] at hw
      simp at hw
    · rw [if_neg he, hz] at hr
      dsimp only at hr
      by_cases hc0 : m.channels = 0
      · rw [if_pos hc0] at hr
        rw [← Option.some.inj hr] at hw
        simp at hw
      · rw [if_neg hc0] at hr
        by_cases hc1 : m.channels = 1
        · rw [if_pos hc1] at hr
          rw [← Option.some.inj hr] at hw
          exact renderChannel_write_color _ _ _ _ _ _ _ _ _ _ _ wr hw
        · rw [if_neg hc1] at hr
          rw [← Option.some.inj hr] at hw
          rcases List.mem_append.mp hw with h | h
          · exact renderChannel_write_color _ _ _ _ _ _ _ _ _ _ _ wr h
          · exact renderChannel_write_color _ _ _ _ _ _ _ _ _ _ _ wr h
  rw [hcol]
  exact get_color_spec wr.x ys rs

theorem red_start_value : constants.RED_START = ((117 : ℝ) / 120) ^ 2 := by
  unfold constants.RED_START
  rw [db_to_ratio_interior (by rw [MIN_DB, RED_START_DB]; norm_num)
    (by rw [RED_START_DB]; norm_num)]
  rw [RED_START_DB]
  norm_num

theorem roundN_two_red_start : rendering.roundN ((2 : ℝ) * constants.RED_START) = 2 := by
  rw [red_start_value]
  unfold rendering.roundN
  rw [round_eq]
  have hfl : ⌊(2 * ((117 : ℝ) / 120) ^ 2 + 1 / 2)⌋ = 2 := by
    rw [Int.floor_eq_iff]
    constructor <;> norm_num
  rw [hfl]
  rfl

theorem colorZones_two : rendering.colorZones ⟨0, 0, 2, 1⟩ = some (0, 1) := by
  unfold rendering.colorZones rendering.u16_sub
  norm_num [roundN_two_red_start]

theorem bar_and_marker_colors_witness :
    (rendering.Color.Yellow = rendering.Color.Red ↔ (1 : ℕ) ≤ 0) ∧
      (0 : ℕ) ≤ 0 + 2 - 2 := by
  have hrg : List.range' 0 2 = [0, 1] := rfl
  have hr : rendering.render ⟨(0, 0), 1, false, false⟩ ⟨0, 0, 2, 1⟩
      (state.MeterState.default 0) 0 =
      some ([⟨0, 0, rendering.Color.Yellow⟩, ⟨0, 0, rendering.Color.Yellow⟩],
        state.MeterState.default 0) := by
    unfold rendering.render
    rw [colorZones_two]
    norm_num [rendering.Rect.isEmpty, rendering.renderChannel, rendering.meterRowY,
      rendering.peakHoldUpdate, rendering.clampN, rendering.get_color,
      rendering.roundN, state.MeterState.default, hrg]
    decide
  have h := bar_and_marker_colors ⟨(0, 0), 1, false, false⟩ ⟨0, 0, 2, 1⟩
    (state.MeterState.default 0) 0 0 1 colorZones_two _ hr
    ⟨0, 0, rendering.Color.Yellow⟩ (by simp)
  exact ⟨h.1.1, h.2.1⟩

end Rataudio
